import Mathlib

/-!
Verification of the mech.fusion toolchain (AVM2 code generator and bitstream
codec) against its natural-language specification.

The development shallowly embeds two subsystems:

* the bitstream codec (`Fusion.Bitstream`): the implementation modules
  `bitstream.py` and `formats.py` are not part of the sources, only their test
  suite `test_formats.py` is; every definition in that namespace is therefore
  modelled from the specification text, with the test vectors as the
  authoritative contract;
* the code-generation context stack (`Fusion.Avm2`): translated directly from
  `mech/fusion/avm2/codegen.py`.  Python's mutable object graph is rendered as
  explicit state passing: a context is a node carrying its own state plus its
  parent, and mutations that Python performs through aliased references
  (a class context also reachable through its script's pending-class table,
  a method context also reachable through `init`/`iinit`/`cinit` slots) are
  rendered as explicit write-backs when the corresponding frame is exited.
-/

deriving instance DecidableEq for Except

namespace Fusion

/-- Error values: each constructor corresponds to the Python exception the
source (or, for the bitstream, the tests) raises in the matching situation. -/
inductive PyErr where
  | wrongContext (op : String) (got : String)
  | notAnArgument (nm : String)
  | attributeError (attr : String)
  | nameError (nm : String)
  | valueError (msg : String)
  | keyError (key : String)
  | lookupError (nm : String)
  | indexError
  | assertionError
deriving DecidableEq, Repr

namespace Bitstream

/-- Modelled from the spec: the module `bitstream.py` is absent from the
sources.  Spec section 3: a BitStream is an ordered sequence of bits together
with a zero-based cursor, invariant `0 <= cursor <= len(bits)`. -/
structure BitStream where
  bits : List Bool
  cursor : Nat
deriving DecidableEq, Repr

/-- Modelled from the spec: `bits_available` is `len(bits) - cursor`. -/
def bitsAvailable (s : BitStream) : Nat := s.bits.length - s.cursor

/-- Modelled from the spec: `rewind()` seeks to absolute position 0. -/
def rewind (s : BitStream) : BitStream := { s with cursor := 0 }

/-- Modelled from the spec: writing inserts/overwrites the encoded bits at the
cursor (extending the sequence when the cursor is at the end) and advances the
cursor by the width written. -/
def writeBits (s : BitStream) (p : List Bool) : BitStream :=
  { bits := s.bits.take s.cursor ++ p ++ s.bits.drop (s.cursor + p.length),
    cursor := s.cursor + p.length }

/-- Big-endian bit pattern of `v` in exactly `n` bits, most significant first
(the test `write(0b1111, UB[8])` gives `"00001111"`). -/
def natBits : Nat → Nat → List Bool
  | 0, _ => []
  | n + 1, v => natBits n (v / 2) ++ [v % 2 == 1]

/-- Accumulates bits most-significant-first into an unsigned integer
(spec section 4.1, unsigned bitfield read). -/
def bitsToNat (l : List Bool) : Nat :=
  l.foldl (fun a b => 2 * a + (if b then 1 else 0)) 0

/-- Splits a bit sequence into consecutive bytes (groups of 8 bits, the last
group possibly shorter). -/
def chunk8 : List Bool → List (List Bool)
  | [] => []
  | a :: l => (a :: l).take 8 :: chunk8 ((a :: l).drop 8)
termination_by l => l.length
decreasing_by simp; omega

/-- Modelled from the spec: little-endian reinterpretation reverses the order
of whole bytes, not the bit order within a byte (spec section 4.1). -/
def reorderBytes (l : List Bool) : List Bool := (chunk8 l).reverse.flatten

inductive Endianness where
  | big
  | little
deriving DecidableEq, Repr

/-- Modelled from the spec: the bit pattern produced by writing `v` with the
unsigned bitfield format `UB[n]` under the given byte order. -/
def ubPattern (e : Endianness) (n v : Nat) : List Bool :=
  match e with
  | .big => natBits n v
  | .little => reorderBytes (natBits n v)

/-- Modelled from the spec: `write(v, UB[n])` (missing `formats.py`). -/
def writeUB (s : BitStream) (e : Endianness) (n v : Nat) : BitStream :=
  writeBits s (ubPattern e n v)

/-- Modelled from the spec: `read(UB[n])` consumes exactly `n` bits starting
at the cursor and fails with an out-of-range error when fewer remain; under
little-endian byte order the whole bytes are reversed before accumulation. -/
def readUB (s : BitStream) (e : Endianness) (n : Nat) :
    Except PyErr (Nat × BitStream) :=
  if n ≤ bitsAvailable s then
    let raw := (s.bits.drop s.cursor).take n
    let raw := match e with
      | .big => raw
      | .little => reorderBytes raw
    .ok (bitsToNat raw, { s with cursor := s.cursor + n })
  else .error .indexError

theorem natBits_length (n v : Nat) : (natBits n v).length = n := by
  induction n generalizing v with
  | zero => rfl
  | succ n ih => simp [natBits, ih]

theorem bitsToNat_append_bit (l : List Bool) (b : Bool) :
    bitsToNat (l ++ [b]) = 2 * bitsToNat l + (if b then 1 else 0) := by
  simp [bitsToNat, List.foldl_append]

theorem bitsToNat_natBits (n v : Nat) : bitsToNat (natBits n v) = v % 2 ^ n := by
  induction n generalizing v with
  | zero => simp [natBits, bitsToNat, Nat.mod_one]
  | succ n ih =>
    rw [natBits, bitsToNat_append_bit, ih, pow_succ, mul_comm (2 ^ n) 2,
      Nat.mod_mul]
    have h2 : (if (v % 2 == 1) = true then 1 else 0) = v % 2 := by
      rcases Nat.mod_two_eq_zero_or_one v with h | h <;> simp [h]
    omega

theorem chunk8_flatten (l : List Bool) : (chunk8 l).flatten = l := by
  induction l using chunk8.induct with
  | case1 => rw [chunk8]; rfl
  | case2 a l ih =>
    rw [chunk8, List.flatten_cons, ih, List.take_append_drop]

theorem chunk8_mem_length (l : List Bool) (h : 8 ∣ l.length) :
    ∀ c ∈ chunk8 l, c.length = 8 := by
  induction l using chunk8.induct with
  | case1 => intro c hc; rw [chunk8] at hc; exact absurd hc (List.not_mem_nil c)
  | case2 a l ih =>
    obtain ⟨k, hk⟩ := h
    simp only [List.length_cons] at hk
    intro c hc
    rw [chunk8, List.mem_cons] at hc
    rcases hc with hc | hc
    · subst hc
      simp only [List.length_take, List.length_cons]
      omega
    · refine ih ⟨k - 1, ?_⟩ c hc
      simp only [List.length_drop, List.length_cons]
      omega

theorem chunk8_of_flatten (cs : List (List Bool))
    (h : ∀ c ∈ cs, c.length = 8) : chunk8 cs.flatten = cs := by
  induction cs with
  | nil => rw [List.flatten_nil, chunk8]
  | cons c cs ih =>
    have hc : c.length = 8 := h c (by simp)
    rcases c with _ | ⟨a, c⟩
    · simp at hc
    · rw [List.flatten_cons, List.cons_append, chunk8, ← List.cons_append,
        List.cons.injEq]
      refine ⟨List.take_left' hc, ?_⟩
      rw [List.drop_left' hc]
      exact ih (fun d hd => h d (by simp [hd]))

theorem reorderBytes_involutive (l : List Bool) (h : 8 ∣ l.length) :
    reorderBytes (reorderBytes l) = l := by
  unfold reorderBytes
  rw [chunk8_of_flatten (chunk8 l).reverse
    (fun c hc => chunk8_mem_length l h c (List.mem_reverse.mp hc))]
  rw [List.reverse_reverse, chunk8_flatten]

theorem ubPattern_length_big (n v : Nat) : (ubPattern .big n v).length = n :=
  natBits_length n v

theorem reorderBytes_length (l : List Bool) : (reorderBytes l).length = l.length := by
  conv_rhs => rw [← chunk8_flatten l]
  simp [reorderBytes, List.length_flatten, List.map_reverse, List.sum_reverse]

theorem ubPattern_length (e : Endianness) (n v : Nat) :
    (ubPattern e n v).length = n := by
  cases e with
  | big => exact natBits_length n v
  | little => rw [ubPattern, reorderBytes_length]; exact natBits_length n v

theorem writeUB_fresh (e : Endianness) (n v : Nat) :
    writeUB ⟨[], 0⟩ e n v = ⟨ubPattern e n v, n⟩ := by
  simp [writeUB, writeBits, ubPattern_length]

theorem readUB_exact (e : Endianness) (p : List Bool) (n : Nat)
    (h : p.length = n) :
    readUB ⟨p, 0⟩ e n =
      .ok (bitsToNat (match e with | .big => p | .little => reorderBytes p),
        ⟨p, n⟩) := by
  have hle : p.length ≤ n := le_of_eq h
  unfold readUB bitsAvailable
  simp [h, List.take_of_length_le hle]

/-- C6: writing a value representable in n bits with the unsigned bitfield
format into a fresh BitStream and reading the same format back from cursor 0
returns the value exactly: for every width in big-endian byte order, and for
widths that are whole multiples of 8 (at least one byte) in little-endian
byte order. -/
theorem ub_write_read_roundtrip :
    (∀ n v : Nat, v < 2 ^ 32 → v < 2 ^ n →
      readUB (rewind (writeUB ⟨[], 0⟩ .big n v)) .big n =
        .ok (v, ⟨ubPattern .big n v, n⟩)) ∧
    (∀ k v : Nat, 1 ≤ k → v < 2 ^ 32 → v < 2 ^ (8 * k) →
      readUB (rewind (writeUB ⟨[], 0⟩ .little (8 * k) v)) .little (8 * k) =
        .ok (v, ⟨ubPattern .little (8 * k) v, 8 * k⟩)) := by
  constructor
  · intro n v _ hv
    rw [writeUB_fresh, show rewind ⟨ubPattern .big n v, n⟩ =
        (⟨ubPattern .big n v, 0⟩ : BitStream) from rfl,
      readUB_exact .big _ n (ubPattern_length .big n v)]
    rw [show ubPattern .big n v = natBits n v from rfl, bitsToNat_natBits,
      Nat.mod_eq_of_lt hv]
  · intro k v hk _ hv
    rw [writeUB_fresh, show rewind ⟨ubPattern .little (8 * k) v, 8 * k⟩ =
        (⟨ubPattern .little (8 * k) v, 0⟩ : BitStream) from rfl,
      readUB_exact .little _ (8 * k) (ubPattern_length .little (8 * k) v)]
    rw [show ubPattern .little (8 * k) v = reorderBytes (natBits (8 * k) v)
        from rfl,
      reorderBytes_involutive _ (by rw [natBits_length]; exact Dvd.intro k rfl),
      bitsToNat_natBits, Nat.mod_eq_of_lt hv]

/-- Witness for `ub_write_read_roundtrip`: width 6 / value 42 big-endian and
width 16 / value 56797 little-endian. -/
theorem ub_write_read_roundtrip_witness :
    readUB (rewind (writeUB ⟨[], 0⟩ .big 6 42)) .big 6 =
      .ok (42, ⟨ubPattern .big 6 42, 6⟩) ∧
    readUB (rewind (writeUB ⟨[], 0⟩ .little 16 56797)) .little 16 =
      .ok (56797, ⟨ubPattern .little 16 56797, 16⟩) := by
  refine ⟨ub_write_read_roundtrip.1 6 42 (by norm_num) (by norm_num), ?_⟩
  have h := ub_write_read_roundtrip.2 2 56797 (by norm_num) (by norm_num)
    (by norm_num)
  simpa using h

/-- Modelled from the spec: the byte-aligned string format writes each byte of
the string as 8 bits, most significant first, bytes in stored order
(missing `formats.py`; bytes are represented as natural numbers below 256). -/
def byteEncode (bs : List Nat) : List Bool := (bs.map (natBits 8)).flatten

/-- Modelled from the spec: `write(s, ByteString)`. -/
def writeByteString (s : BitStream) (bs : List Nat) : BitStream :=
  writeBits s (byteEncode bs)

/-- Modelled from the spec: `write(Zero[8])` appends a single zero byte, as the
null-terminated string write does after the raw byte contents. -/
def writeZeroByte (s : BitStream) : BitStream := writeBits s (natBits 8 0)

/-- Modelled from the spec: the null-terminated string read consumes bytes
until (and excluding) the first zero byte, and fails with a ValueError when
the stream is exhausted without finding one (missing `formats.py`; the error
kind is fixed by `test_read_string`). -/
def readCStringAux (l : List Bool) : Except PyErr (List Nat) :=
  if _h : l.length < 8 then .error (.valueError "CString is missing its zero terminator")
  else
    let b := bitsToNat (l.take 8)
    if b = 0 then .ok []
    else
      match readCStringAux (l.drop 8) with
      | .ok rest => .ok (b :: rest)
      | .error e => .error e
termination_by l.length
decreasing_by simp; omega

/-- Modelled from the spec: `read(CString)` applied to the bits remaining
after the cursor. -/
def readCString (s : BitStream) : Except PyErr (List Nat) :=
  readCStringAux (s.bits.drop s.cursor)

theorem readCStringAux_terminated (bs : List Nat)
    (h : ∀ b ∈ bs, b < 256 ∧ b ≠ 0) :
    readCStringAux (byteEncode bs ++ natBits 8 0) = .ok bs := by
  induction bs with
  | nil =>
    rw [readCStringAux]
    simp [byteEncode, natBits_length, natBits, bitsToNat]
  | cons b bs ih =>
    obtain ⟨hlt, hne⟩ := h b (by simp)
    have hlen : (natBits 8 b).length = 8 := natBits_length 8 b
    have henc : byteEncode (b :: bs) ++ natBits 8 0 =
        natBits 8 b ++ (byteEncode bs ++ natBits 8 0) := by
      simp [byteEncode]
    rw [henc, readCStringAux]
    have hbig : ¬ (natBits 8 b ++ (byteEncode bs ++ natBits 8 0)).length < 8 := by
      simp [hlen]
    have htake : (natBits 8 b ++ (byteEncode bs ++ natBits 8 0)).take 8 =
        natBits 8 b := List.take_left' hlen
    have hdrop : (natBits 8 b ++ (byteEncode bs ++ natBits 8 0)).drop 8 =
        byteEncode bs ++ natBits 8 0 := List.drop_left' hlen
    rw [dif_neg hbig]
    simp only [htake, hdrop, bitsToNat_natBits]
    have h256 : b % 2 ^ 8 = b :=
      Nat.mod_eq_of_lt (lt_of_lt_of_le hlt (by norm_num))
    rw [h256, if_neg hne, ih (fun d hd => h d (by simp [hd]))]

theorem readCStringAux_unterminated (bs : List Nat)
    (h : ∀ b ∈ bs, b < 256 ∧ b ≠ 0) :
    readCStringAux (byteEncode bs) =
      .error (.valueError "CString is missing its zero terminator") := by
  induction bs with
  | nil => rw [readCStringAux]; simp [byteEncode]
  | cons b bs ih =>
    obtain ⟨hlt, hne⟩ := h b (by simp)
    have hlen : (natBits 8 b).length = 8 := natBits_length 8 b
    have henc : byteEncode (b :: bs) = natBits 8 b ++ byteEncode bs := by
      simp [byteEncode]
    rw [henc, readCStringAux]
    have hbig : ¬ (natBits 8 b ++ byteEncode bs).length < 8 := by simp [hlen]
    rw [dif_neg hbig]
    simp only [List.take_left' hlen, List.drop_left' hlen, bitsToNat_natBits]
    have h256 : b % 2 ^ 8 = b :=
      Nat.mod_eq_of_lt (lt_of_lt_of_le hlt (by norm_num))
    rw [h256, if_neg hne, ih (fun d hd => h d (by simp [hd]))]

/-- C7: for every zero-free byte string, writing it with the byte-string
format, appending a zero byte, rewinding, and reading the null-terminated
string format returns exactly the original bytes without the terminator;
and reading the null-terminated string format from a stream whose remaining
bytes contain no zero byte fails with an error. -/
theorem cstring_roundtrip_and_missing_terminator :
    (∀ bs : List Nat, (∀ b ∈ bs, b < 256 ∧ b ≠ 0) →
      readCString (rewind (writeZeroByte (writeByteString ⟨[], 0⟩ bs))) =
        .ok bs) ∧
    (∀ bs : List Nat, (∀ b ∈ bs, b < 256 ∧ b ≠ 0) →
      readCString (rewind (writeByteString ⟨[], 0⟩ bs)) =
        .error (.valueError "CString is missing its zero terminator")) := by
  constructor
  · intro bs h
    have hw : writeZeroByte (writeByteString ⟨[], 0⟩ bs) =
        ⟨byteEncode bs ++ natBits 8 0,
          (byteEncode bs).length + (natBits 8 0).length⟩ := by
      simp [writeByteString, writeZeroByte, writeBits, List.take_of_length_le]
    rw [hw]
    show readCStringAux (List.drop 0 (byteEncode bs ++ natBits 8 0)) = .ok bs
    rw [List.drop_zero]
    exact readCStringAux_terminated bs h
  · intro bs h
    have hw : writeByteString ⟨[], 0⟩ bs =
        ⟨byteEncode bs, (byteEncode bs).length⟩ := by
      simp [writeByteString, writeBits]
    rw [hw]
    show readCStringAux (List.drop 0 (byteEncode bs)) = _
    rw [List.drop_zero]
    exact readCStringAux_unterminated bs h

/-- Witness for `cstring_roundtrip_and_missing_terminator`: the byte string
"FWS" (70, 87, 83). -/
theorem cstring_roundtrip_witness :
    readCString (rewind (writeZeroByte (writeByteString ⟨[], 0⟩ [70, 87, 83]))) =
      .ok [70, 87, 83] ∧
    readCString (rewind (writeByteString ⟨[], 0⟩ [70, 87, 83])) =
      .error (.valueError "CString is missing its zero terminator") :=
  ⟨cstring_roundtrip_and_missing_terminator.1 [70, 87, 83] (by decide),
   cstring_roundtrip_and_missing_terminator.2 [70, 87, 83] (by decide)⟩

/-- Decoded value domain of the float formats: exact rationals for finite
values, plus signed infinities and NaNs (sign and mantissa payload). -/
inductive FloatVal where
  | num (q : ℚ)
  | inf (sign : Bool)
  | nan (sign : Bool) (mantissa : Nat)
deriving DecidableEq, Repr

/-- Modelled from the spec: field widths (exponent/mantissa bits, 5/10, 8/23,
11/52) and exponent bias of the float formats (missing `formats.py`).  The
16-bit test vector (1.0 reads back from "0100000000000000": sign 0, exponent
field 16, mantissa 0) fixes an exponent bias of 16 for the half format; the
32- and 64-bit formats use the IEEE-754 biases 127 and 1023, as confirmed by
the 0.15625 and 1.0 test vectors. -/
def floatFields : Nat → Option (Nat × Nat × Int)
  | 16 => some (5, 10, 16)
  | 32 => some (8, 23, 127)
  | 64 => some (11, 52, 1023)
  | _ => none

/-- Modelled from the spec: reconstruct the value from the sign, exponent and
mantissa bit groups; an all-ones exponent decodes to a signed infinity when
the mantissa is zero and to NaN otherwise; a zero exponent is subnormal. -/
def decodeFloat (ebits mbits : Nat) (bias : Int) (l : List Bool) : FloatVal :=
  let sign := l.headD false
  let e := bitsToNat ((l.drop 1).take ebits)
  let m := bitsToNat ((l.drop (1 + ebits)).take mbits)
  if e = 2 ^ ebits - 1 then
    if m = 0 then .inf sign else .nan sign m
  else
    let mag : ℚ :=
      if e = 0 then (m : ℚ) / 2 ^ mbits * 2 ^ ((1 : Int) - bias)
      else (1 + (m : ℚ) / 2 ^ mbits) * 2 ^ ((e : Int) - bias)
    .num (if sign then -mag else mag)

/-- Modelled from the spec: `read(FloatFormat[w])` consumes the full width and
decodes sign, exponent and mantissa fields. -/
def readFloat (w : Nat) (s : BitStream) : Except PyErr (FloatVal × BitStream) :=
  match floatFields w with
  | none => .error (.valueError "unsupported float width")
  | some (eb, mb, bias) =>
    let n := 1 + eb + mb
    if n ≤ bitsAvailable s then
      .ok (decodeFloat eb mb bias ((s.bits.drop s.cursor).take n),
        { s with cursor := s.cursor + n })
    else .error .indexError

/-- The bit pattern of a signed infinity: sign bit, all-ones exponent field,
all-zero mantissa field. -/
def infPattern (w : Nat) (sign : Bool) : List Bool :=
  match floatFields w with
  | none => []
  | some (eb, mb, _) =>
    sign :: (List.replicate eb true ++ List.replicate mb false)

/-- Modelled from the spec: `write(v, FloatFormat[w])`.  The spec fixes the
write behaviour only on infinities (the all-ones-exponent/zero-mantissa
pattern, symmetric to read); finite and NaN encodings are not determined by
the sources and are left unmodelled. -/
def writeFloat (v : FloatVal) (w : Nat) (s : BitStream) :
    Except PyErr BitStream :=
  match floatFields w with
  | none => .error (.valueError "unsupported float width")
  | some _ =>
    match v with
    | .inf sign => .ok (writeBits s (infPattern w sign))
    | _ => .error (.valueError "only the infinity encoding is fixed by the spec")

/-- Modelled from the spec: constructing a BitStream from a string of 0/1
characters, whitespace ignored. -/
def bitStreamOfString (str : String) : BitStream :=
  ⟨str.data.filterMap (fun c => if c = '1' then some true
      else if c = '0' then some false else none), 0⟩

/-- C8: for each float width in 16, 32, 64: reading the bit pattern with
all-ones exponent field and all-zero mantissa field decodes to positive
infinity when the sign bit is 0 and to negative infinity when the sign bit
is 1, and writing an infinity produces exactly the corresponding pattern. -/
theorem float_infinity_read_write :
    (readFloat 16 ⟨infPattern 16 false, 0⟩ =
      .ok (.inf false, ⟨infPattern 16 false, 16⟩)) ∧
    (readFloat 16 ⟨infPattern 16 true, 0⟩ =
      .ok (.inf true, ⟨infPattern 16 true, 16⟩)) ∧
    (readFloat 32 ⟨infPattern 32 false, 0⟩ =
      .ok (.inf false, ⟨infPattern 32 false, 32⟩)) ∧
    (readFloat 32 ⟨infPattern 32 true, 0⟩ =
      .ok (.inf true, ⟨infPattern 32 true, 32⟩)) ∧
    (readFloat 64 ⟨infPattern 64 false, 0⟩ =
      .ok (.inf false, ⟨infPattern 64 false, 64⟩)) ∧
    (readFloat 64 ⟨infPattern 64 true, 0⟩ =
      .ok (.inf true, ⟨infPattern 64 true, 64⟩)) ∧
    (writeFloat (.inf false) 16 ⟨[], 0⟩ = .ok ⟨infPattern 16 false, 16⟩) ∧
    (writeFloat (.inf true) 16 ⟨[], 0⟩ = .ok ⟨infPattern 16 true, 16⟩) ∧
    (writeFloat (.inf false) 32 ⟨[], 0⟩ = .ok ⟨infPattern 32 false, 32⟩) ∧
    (writeFloat (.inf true) 32 ⟨[], 0⟩ = .ok ⟨infPattern 32 true, 32⟩) ∧
    (writeFloat (.inf false) 64 ⟨[], 0⟩ = .ok ⟨infPattern 64 false, 64⟩) ∧
    (writeFloat (.inf true) 64 ⟨[], 0⟩ = .ok ⟨infPattern 64 true, 64⟩) := by
  decide

/-- Sanity check against the test vectors: the infinity patterns are exactly
the literal bit strings of `test_read_float_value_16` and `_64`. -/
theorem infPattern_matches_test_vectors :
    bitStreamOfString "0111110000000000" = ⟨infPattern 16 false, 0⟩ ∧
    bitStreamOfString "1111110000000000" = ⟨infPattern 16 true, 0⟩ ∧
    bitStreamOfString "1 11111111 00000000000000000000000" =
      ⟨infPattern 32 true, 0⟩ ∧
    bitStreamOfString
      "0111111111110000000000000000000000000000000000000000000000000000" =
      ⟨infPattern 64 false, 0⟩ := by
  decide

/-- Sanity check against `test_read_float_value_16`: the pattern
"0100000000000000" decodes to exactly 1 (this vector fixes the bias 16 of the
half format). -/
theorem readFloat_16_one :
    readFloat 16 (bitStreamOfString "0100000000000000") =
      .ok (.num 1, ⟨(bitStreamOfString "0100000000000000").bits, 16⟩) := by
  have h : bitStreamOfString "0100000000000000" =
      ⟨[false, true, false, false, false, false, false, false, false, false,
        false, false, false, false, false, false], 0⟩ := by decide
  rw [h]
  norm_num [readFloat, floatFields, decodeFloat, bitsAvailable, bitsToNat]

/-- Sanity check against `test_read_float_value_32`: the pattern
"0 01111100 01000000000000000000000" decodes to exactly 0.15625. -/
theorem readFloat_32_quarter_eighth :
    readFloat 32 (bitStreamOfString "0 01111100 01000000000000000000000") =
      .ok (.num (5 / 32),
        ⟨(bitStreamOfString "0 01111100 01000000000000000000000").bits, 32⟩) := by
  have h : bitStreamOfString "0 01111100 01000000000000000000000" =
      ⟨[false,
        false, true, true, true, true, true, false, false,
        false, true, false, false, false, false, false, false, false, false,
        false, false, false, false, false, false, false, false, false, false,
        false, false, false], 0⟩ := by decide
  rw [h]
  norm_num [readFloat, floatFields, decodeFloat, bitsAvailable, bitsToNat]

end Bitstream

namespace Avm2

/-- Qualified names: `constants.QName` wraps a plain name (and is idempotent
on QNames); the codegen layer only constructs, compares and stores them, so
they are modelled as strings. -/
abbrev QName := String

/-- Instruction objects are external collaborators (spec section 6): opaque
values the context layer appends to a method's instruction sequence.  Only the
constructors actually emitted by `codegen.py` on the modelled paths appear. -/
inductive Instruction where
  | getlocal (n : Nat)
  | setlocal (n : Nat)
  | pushscope
  | popscope
  | getscopeobject (n : Nat)
  | getlex (nm : QName)
  | newclass (index : Nat)
  | initproperty (nm : QName)
  | constructsuper (argc : Nat)
  | kill (n : Nat)
  | addexcinfo
deriving DecidableEq, Repr

/-- Trait records (`traits.AbcMethodTrait` / `AbcGetterTrait` /
`AbcSetterTrait` / `AbcClassTrait`); the `traits` module is an external
collaborator, so a trait is modelled by its kind, name and override flag. -/
inductive Trait where
  | methodTrait (nm : QName) (override : Bool)
  | getterTrait (nm : QName) (override : Bool)
  | setterTrait (nm : QName) (override : Bool)
  | classTrait (nm : QName)
deriving DecidableEq, Repr

/-- `AbcException(from_, to_, target, exc_type, var_name)`: the placeholder
exception-region record appended by `MethodContext.add_exception`. -/
structure AbcException where
  excFrom : Int
  excTo : Int
  target : Int
  excType : QName
  varName : String
deriving DecidableEq, Repr

/-- The data of an `AbcMethodInfo(name, param_types, return_type,
param_names)` record (module `abc_`, an external collaborator). -/
structure AbcMethodRec where
  methodName : String
  paramTypes : List QName
  retType : QName
  paramNames : List String
deriving DecidableEq, Repr

/-- A method-body record: `AbcMethodBodyInfo` bundles the method with its
assembler, activation traits and exception table; the tables intern it by the
method it belongs to. -/
structure AbcBodyRec where
  method : AbcMethodRec
deriving DecidableEq, Repr

/-- `AbcScriptInfo(init, traits)`. -/
structure AbcScriptRec where
  init : AbcMethodRec
  traits : List Trait
deriving DecidableEq, Repr

/-- `AbcInstanceInfo(name, iinit, traits, super_name)`. -/
structure AbcInstanceRec where
  nm : QName
  superName : QName
  iinit : AbcMethodRec
  traits : List Trait
deriving DecidableEq, Repr

/-- `AbcClassInfo(cinit, traits)`. -/
structure AbcClassRec where
  cinit : AbcMethodRec
  traits : List Trait
deriving DecidableEq, Repr

/-- The bytecode-file accumulator (`AbcFile`): script, method, method-body,
instance and class tables. -/
structure AbcFile where
  scripts : List AbcScriptRec
  methods : List AbcMethodRec
  bodies : List AbcBodyRec
  instances : List AbcInstanceRec
  classes : List AbcClassRec
deriving DecidableEq, Repr

/-- Modelled from the spec: each persistent table exposes an `index_for`
operation that deduplicates/interns a record and returns a stable index
(spec section 6; module `abc_` is absent from the sources). -/
def indexFor {α : Type} [DecidableEq α] (l : List α) (a : α) : List α × Nat :=
  if a ∈ l then (l, l.indexOf a) else (l ++ [a], l.length)

/-- The state of a `MethodContext` (and of the `AbcMethodInfo` it owns):
`__init__` stores the generator, method, parent, optimize flag, the code
assembler (instruction list plus local-variable register table seeded with
"this" followed by the parameter names passed to `MethodContext` itself), the
label counters, the activation-trait and exception lists; the class
attributes `scope_nest = 0` and `constructor = False` may be overridden per
instance.  `methodDone` models the `done` flag of the owned `AbcMethodInfo`
(module `abc_` is absent from the sources; the codegen layer only ever reads
it, so it is modelled as initially false and never set here). -/
structure MethodContext where
  methodName : String
  paramTypes : List QName
  retType : QName
  paramNames : List String
  instructions : List Instruction
  locals : List (Option String)
  labelCounters : List (String × Nat)
  acvTraits : List Trait
  exceptions : List AbcException
  constructor : Bool
  scopeNest : Nat
  methodDone : Bool
deriving DecidableEq, Repr

/-- The state of a `ClassContext`: name, super name (defaulted to "Object"),
instance and static trait lists, the lazily created `cinit` and `iinit`
method contexts, and the instance-table index assigned on exit. -/
structure ClassContext where
  nm : QName
  superName : QName
  instanceTraits : List Trait
  staticTraits : List Trait
  cinit : Option MethodContext
  iinit : Option MethodContext
  index : Option Nat
deriving DecidableEq, Repr

/-- The state of a `ScriptContext`: trait list, pending-class table (an
association list mirroring the dict; entries are inserted only when the key
is absent, so keys are unique) together with the registration order list,
the lazily created init method, and the `done` flag. -/
structure ScriptContext where
  traits : List Trait
  pending : List (QName × ClassContext × Option (List QName))
  pendingOrder : List QName
  init : Option MethodContext
  done : Bool
deriving DecidableEq, Repr

/-- Where a method context is also referenced from its parent (Python
aliasing): the script `init` slot, a class `iinit`/`cinit` slot, or nowhere
(a plain `new_method` context is only reachable through the stack). -/
inductive MethodSlot where
  | plain
  | scriptInit
  | classIinit
  | classCinit
deriving DecidableEq, Repr

/-- A context chain: each context carries its own state and its parent
(the exclusive predecessor link of spec section 3: a singly linked stack,
acyclic by construction). -/
inductive Ctx where
  | globalCtx
  | scriptCtx (s : ScriptContext) (parent : Ctx)
  | classCtx (c : ClassContext) (parent : Ctx)
  | methodCtx (m : MethodContext) (slot : MethodSlot) (parent : Ctx)
  | catchCtx (scopeNest : Nat) (localName : String) (parent : Ctx)
deriving DecidableEq, Repr

/-- The generator state: the single current-context pointer plus the
bytecode-file accumulator. -/
structure Gen where
  context : Option Ctx
  abc : AbcFile
deriving DecidableEq, Repr

/-- `CONTEXT_TYPE` of the current context; a `CatchContext` defines no
`CONTEXT_TYPE` of its own and delegates the attribute to its parent through
`__getattr__`. -/
def Ctx.contextType : Ctx → String
  | .globalCtx => "global"
  | .scriptCtx _ _ => "script"
  | .classCtx _ _ => "class"
  | .methodCtx _ _ _ => "method"
  | .catchCtx _ _ p => p.contextType

/-- The `constructor` attribute of the current context (class attribute of
`MethodContext`, overridden to True on iinit contexts); a catch context
delegates it to its parent.  Only read behind a `CONTEXT_TYPE == "method"`
test, so the other cases never come up in the source. -/
def Ctx.constructorFlag : Ctx → Bool
  | .methodCtx m _ _ => m.constructor
  | .catchCtx _ _ p => p.constructorFlag
  | _ => false

/-- The fresh `AbcFile` of `CodeGenerator.__init__`. -/
def emptyAbc : AbcFile := ⟨[], [], [], [], []⟩

/-- The fresh `ScriptContext` state built by `GlobalContext.new_script`. -/
def freshScript : ScriptContext := ⟨[], [], [], none, false⟩

/-- The generator state right after `CodeGenerator()` with `make_script`:
the global context wrapped by `script0`. -/
def initialGen : Gen := ⟨some (.scriptCtx freshScript .globalCtx), emptyAbc⟩

/-- `_MethodContextMixin.new_method_info(name, params, rettype)`: builds an
`AbcMethodInfo` with the parameter types as the first components and the
parameter names as the second components of the `(type, name)` pairs. -/
def new_method_info (nm : String) (params : List (QName × String))
    (ret : QName) : AbcMethodRec :=
  ⟨nm, params.map Prod.fst, ret, params.map Prod.snd⟩

/-- `MethodContext.__init__(gen, method, parent, params, stdprologue=True)`:
the assembler is seeded with the local names `['this'] + param_names` (from
the `params` argument given to `MethodContext`, not the method signature) and
`restore_scopes` emits `getlocal(scope_nest)` (0 here) and `pushscope`. -/
def mkMethodContext (info : AbcMethodRec) (ctxParams : List (QName × String))
    (ctor : Bool) : MethodContext :=
  { methodName := info.methodName
    paramTypes := info.paramTypes
    retType := info.retType
    paramNames := info.paramNames
    instructions := [.getlocal 0, .pushscope]
    locals := some "this" :: ctxParams.map (fun tn => some tn.2)
    labelCounters := []
    acvTraits := []
    exceptions := []
    constructor := ctor
    scopeNest := 0
    methodDone := false }

/-- The method record of a method context (its `AbcMethodInfo` data). -/
def methodRec (m : MethodContext) : AbcMethodRec :=
  ⟨m.methodName, m.paramTypes, m.retType, m.paramNames⟩

/-- `MethodContext.exit`: registers the method in the method table and its
body in the method-body table. -/
def method_exit (m : MethodContext) (abc : AbcFile) : AbcFile :=
  let ms := (indexFor abc.methods (methodRec m)).1
  let bs := (indexFor abc.bodies ⟨methodRec m⟩).1
  { abc with methods := ms, bodies := bs }

/-- When a method frame is popped, its final state is written back into the
slot of the parent that Python reaches through an aliased reference
(`script.init.ctx`, `class.iinit.ctx`, `class.cinit.ctx`); a plain method
context is not referenced by its parent.  A slot/parent mismatch cannot be
produced by the source (the factories always pair them up) and is a no-op. -/
def writeBackMethod (p : Ctx) (slot : MethodSlot) (m : MethodContext) : Ctx :=
  match slot, p with
  | .scriptInit, .scriptCtx s pp => .scriptCtx { s with init := some m } pp
  | .classIinit, .classCtx c pp => .classCtx { c with iinit := some m } pp
  | .classCinit, .classCtx c pp => .classCtx { c with cinit := some m } pp
  | _, _ => p

/-- The global names bound at module level in `codegen.py`: the imported
names (lines 1-13) and the top-level class definitions.  Python resolves a
bare name inside a method body against the local scope, then this module
namespace, then builtins. -/
def codegenModuleNames : List String :=
  ["constants", "instructions", "library", "traits", "util",
   "CodeAssembler", "AbcMethodInfo", "AbcMethodBodyInfo", "AbcClassInfo",
   "AbcInstanceInfo", "AbcScriptInfo", "AbcException", "AbcFile",
   "ILoadable", "LoadableAdapter", "implements", "adapter", "provideAdapter",
   "isnan", "chain", "WrongContextError", "GlobalContext",
   "_MethodContextMixin", "ScriptContext", "ClassContext", "MethodContext",
   "CatchContext", "ListLoadable", "DictLoadable", "BoolLoadable",
   "IntLoadable", "FloatLoadable", "BaseStringLoadable",
   "NotAnArgumentError", "Local", "Argument", "CodeGenerator",
   "ContextManager"]

/-- `MethodContext.add_exception(param_type)` from the source:
```
exc = AbcException(-1, -1, -1, param_type, "")
self.asm.add_instruction(instructIons.addexcinfo(self, exc))
self.exceptions.append(exc)
return len(self.exceptions)-1
```
The second line names the bare global `instructIons` (note the capital I),
which is bound nowhere in the module (the import is `instructions`) nor in
builtins, so Python raises NameError there, before the append executes. -/
def MethodContext.add_exception (m : MethodContext) (paramType : QName) :
    Except PyErr (MethodContext × Nat) :=
  let exc : AbcException := ⟨-1, -1, -1, paramType, ""⟩
  if codegenModuleNames.contains "instructIons" then
    .ok ({ m with
            instructions := m.instructions ++ [.addexcinfo],
            exceptions := m.exceptions ++ [exc] },
      m.exceptions.length)
  else .error (.nameError "instructIons")

/-- The identifier `instructIons` is not among the module's global names. -/
theorem instructIons_unbound : codegenModuleNames.contains "instructIons" = false := by
  decide

/-- C2 (what the source actually does): `add_exception` always raises
`NameError` on the unbound global `instructIons` (a typo for `instructions`
at codegen.py line 355), before the placeholder record is appended or an
index returned.  The claim describes the evident intent (and the method's
own docstring), so this is a bug in the code, not in the claim. -/
theorem add_exception_raises_name_error :
    ∀ (m : MethodContext) (paramType : QName),
      MethodContext.add_exception m paramType = .error (.nameError "instructIons") := by
  intro m paramType
  rw [MethodContext.add_exception]
  rw [instructIons_unbound]
  rfl

/-- Appending instructions to the current context
(`context.add_instructions`); only method contexts define it, a catch context
delegates to its (method) parent, and any other context raises
AttributeError when the generator emits while it is current. -/
def Ctx.addInstructions : Ctx → List Instruction → Except PyErr Ctx
  | .methodCtx m slot p, is =>
      .ok (.methodCtx { m with instructions := m.instructions ++ is } slot p)
  | .catchCtx n l p, is => do
      .ok (.catchCtx n l (← p.addInstructions is))
  | _, _ => .error (.attributeError "add_instructions")

/-- `CodeGenerator.I(*i)`: add the instructions to the current method. -/
def Gen.I (g : Gen) (is : List Instruction) : Except PyErr Gen :=
  match g.context with
  | none => .error (.attributeError "add_instructions")
  | some c => do .ok { g with context := some (← c.addInstructions is) }

/-- First register bound to a local name in the assembler's register table
(`CodeAssembler.get_local`).  Modelled from the spec: the `assembler` module
is absent from the sources; spec section 4.2 describes the table as a
symbolic name-to-register binding with pure lookups, and unbound names are
lookup errors that propagate. -/
def localIndex (locals : List (Option String)) (nm : String) :
    Except PyErr Nat :=
  match locals.findIdx? (fun o => o == some nm) with
  | some i => .ok i
  | none => .error (.lookupError nm)

/-- `get_local` of the current context: method contexts delegate to their
assembler, catch contexts to their parent. -/
def Ctx.getLocal : Ctx → String → Except PyErr Nat
  | .methodCtx m _ _, nm => localIndex m.locals nm
  | .catchCtx _ _ p, nm => p.getLocal nm
  | _, _ => .error (.attributeError "get_local")

/-- `CodeGenerator.GL(name)`: look up the register bound to `name` and push
it with a `getlocal`. -/
def Gen.GL (g : Gen) (nm : String) : Except PyErr Gen := do
  match g.context with
  | none => .error (.attributeError "get_local")
  | some c => do
      let i ← c.getLocal nm
      g.I [.getlocal i]

/-- The attributes of a `MethodContext` instance: `__init__` (codegen.py
lines 311-321) binds `gen`, `method`, `parent`, `optimize`, `asm`,
`label_counters`, `acv_traits`, `exceptions` and `body`; the class and its
`_MethodContextMixin` base contribute `CONTEXT_TYPE`, `scope_nest`,
`constructor` and the methods.  `params` is never stored: `__init__` reads
its `params` argument (building `param_names`) but does not assign it to
`self`. -/
def methodContextAttrs : List String :=
  ["gen", "method", "parent", "optimize", "asm", "label_counters",
   "acv_traits", "exceptions", "body", "CONTEXT_TYPE", "scope_nest",
   "constructor", "new_method_info", "new_method", "exit", "next_label",
   "add_activation_trait", "add_exception", "add_instructions",
   "next_free_local", "set_local", "kill_local", "get_local", "has_local",
   "restore_scopes"]

/-- The attribute lookup `self.context.params` performed by
`CodeGenerator.push_arg`.  No context class binds an attribute named
`params` (for method contexts see `methodContextAttrs` and
`params_not_a_method_attr`; script, class and global contexts bind even
fewer instance attributes and also none named `params`), so the lookup
raises AttributeError on every context; on a catch context the lookup is
delegated via `__getattr__` to the parent and fails there. -/
def ctxAttrParams : Ctx → Except PyErr (List (QName × String))
  | .catchCtx _ _ p => ctxAttrParams p
  | _ => .error (.attributeError "params")

theorem params_not_a_method_attr :
    methodContextAttrs.contains "params" = false := by decide

/-- `CodeGenerator.push_arg(name)` from the source:
```
if not any(n == name for t, n in self.context.params):
    raise NotAnArgumentError(name)
self.GL(name)
```
The generator expression evaluates `self.context.params` first. -/
def push_arg (g : Gen) (nm : String) : Except PyErr Gen :=
  match g.context with
  | none => .error (.attributeError "params")
  | some c => do
      let ps ← ctxAttrParams c
      if ps.any (fun tn => tn.2 == nm) then g.GL nm
      else .error (.notAnArgument nm)

theorem ctxAttrParams_always_fails (c : Ctx) :
    ctxAttrParams c = .error (.attributeError "params") := by
  induction c with
  | globalCtx => rfl
  | scriptCtx s p ih => rfl
  | classCtx c p ih => rfl
  | methodCtx m slot p ih => rfl
  | catchCtx n l p ih => exact ih

/-- C3 (what the source actually does): `push_arg` always raises
AttributeError, whatever the current context and argument name, because
`MethodContext.__init__` never stores its `params` argument on the context
(codegen.py lines 311-321) while `push_arg` reads `self.context.params`
(line 956).  The claim describes the evident intent (the `NotAnArgumentError`
class and the docstring exist solely for this check), so this is a bug in
the code, not in the claim. -/
theorem push_arg_raises_attribute_error :
    ∀ (g : Gen) (nm : String),
      push_arg g nm = .error (.attributeError "params") := by
  intro g nm
  match hc : g.context with
  | none => rw [push_arg, hc]
  | some c =>
    simp only [push_arg, hc, ctxAttrParams_always_fails c]
    rfl

/-- `ClassContext.make_cinit` creates `AbcMethodInfo("", [], ANY_NAME)` (the
any-type name, written "*") and a `MethodContext` for it with the standard
prologue. -/
def mkCinitCtx : MethodContext := mkMethodContext ⟨"", [], "*", []⟩ [] false

/-- The iinit method context built by `ClassContext.make_iinit` when none
exists yet: method info `new_method_info("", params, "void")`, a
`MethodContext` constructed with an empty `params` argument (so only "this"
is bound) and `constructor = True`; since the fresh `AbcMethodInfo` is not
`done`, `push_this` (a `getlocal` of register 0, where "this" is bound) and
`constructsuper 0` are emitted into the entered context. -/
def mkIinitCtx (params : List (QName × String)) : MethodContext :=
  let info := new_method_info "" params "void"
  let m := mkMethodContext info [] true
  if m.methodDone then m
  else { m with
          instructions := m.instructions ++ [.getlocal 0, .constructsuper 0] }

/-- `ClassContext.make_iinit(params)`: raises ValueError when the iinit is
already fixed and a nonempty parameter list is supplied (before any state is
touched); otherwise creates the iinit (when absent) or re-enters the
existing one, emitting the `push_this`/`constructsuper` prologue when the
method is not done.  Returns the updated class state together with the
method context entered. -/
def ClassContext.make_iinit (c : ClassContext)
    (params : List (QName × String)) :
    Except PyErr (ClassContext × MethodContext) :=
  match c.iinit with
  | some i =>
      if params ≠ [] then .error (.valueError "parameters cannot be redefined")
      else
        let i := if i.methodDone then i
          else { i with
                  instructions :=
                    i.instructions ++ [.getlocal 0, .constructsuper 0] }
        .ok ({ c with iinit := some i }, i)
  | none =>
      let m := mkIinitCtx params
      .ok ({ c with iinit := some m }, m)

/-- `ClassContext.exit` (after the parent-is-script assertion, handled in
`Ctx.exit`): synthesize a default constructor and a default class
initializer when absent (Python enters and immediately exits their method
contexts via `end_constructor`/`end_method`, which registers their method
and body records), then build the instance and class records, intern them
and remember the instance index. -/
def class_exit (c : ClassContext) (abc : AbcFile) : ClassContext × AbcFile :=
  let (iinitM, c1, abc1) :=
    match c.iinit with
    | some i => (i, c, abc)
    | none =>
        let m := mkIinitCtx []
        (m, { c with iinit := some m }, method_exit m abc)
  let (cinitM, c2, abc2) :=
    match c1.cinit with
    | some i => (i, c1, abc1)
    | none =>
        (mkCinitCtx, { c1 with cinit := some mkCinitCtx },
          method_exit mkCinitCtx abc1)
  let inst : AbcInstanceRec :=
    ⟨c.nm, c.superName, methodRec iinitM, c2.instanceTraits⟩
  let cls : AbcClassRec := ⟨methodRec cinitM, c2.staticTraits⟩
  let (insts, idx) := indexFor abc2.instances inst
  let (clss, _) := indexFor abc2.classes cls
  ({ c2 with index := some idx },
    { abc2 with instances := insts, classes := clss })

/-- Lookup in the pending-class table (`self.pending_classes[name]` /
`.get`): the dict is modelled as an association list whose keys are unique
because entries are only inserted when the key is absent. -/
def lookupPending (pending : List (QName × ClassContext × Option (List QName)))
    (nm : QName) : Option (ClassContext × Option (List QName)) :=
  (pending.find? (fun e => e.1 == nm)).map (fun e => e.2)

/-- `ScriptContext.new_class(name, super_name, bases)`: re-enters the
pending class context when the name is already pending, leaving the table
and order unchanged; otherwise creates a fresh class context (super name
defaulted to "Object" by `ClassContext.__init__`), registers it in the
pending table and the registration order, and enters it.  Returns the
updated script state and the class context entered. -/
def ScriptContext.new_class (s : ScriptContext) (nm : QName)
    (superName : Option QName) (bases : Option (List QName)) :
    ScriptContext × ClassContext :=
  match lookupPending s.pending nm with
  | some (ctx, _) => (s, ctx)
  | none =>
      let ctx : ClassContext :=
        ⟨nm, superName.getD "Object", [], [], none, none, none⟩
      ({ s with
          pending := s.pending ++ [(nm, ctx, bases)],
          pendingOrder := s.pendingOrder ++ [nm] }, ctx)

/-- `CodeGenerator.get_class_context(name, DICT)` falls back to
`DICT.get(name, [None])[0]` when no native-library type exists for the
name.  The native type library (`library.AllTypes`) is ambient process-wide
state accumulated by every loaded library; the model takes it to be empty
(no library loaded), so `library.type_exists` is always false. -/
def get_class_context
    (pending : List (QName × ClassContext × Option (List QName)))
    (nm : QName) : Option ClassContext :=
  (lookupPending pending nm).map (fun e => e.1)

/-- The ancestor-collection loop of `ScriptContext.exit`:
`while ctx: parents.append(ctx.name); ctx = get_class_context(ctx.super_name, ...)`,
modelled with explicit fuel; `none` means the fuel ran out with the loop
still running.  For a table of n pending classes an acyclic walk visits at
most n distinct classes, so fuel n+1 computes exactly what the source loop
does whenever that loop terminates; when the superclass chain cycles through
the table the source loop never exits (see the C9 counterexample below). -/
def ancestorsAux
    (pending : List (QName × ClassContext × Option (List QName))) :
    Option ClassContext → Nat → Option (List QName)
  | none, _ => some []
  | some _, 0 => none
  | some c, n + 1 =>
      (ancestorsAux pending (get_class_context pending c.superName) n).map
        (fun ps => c.nm :: ps)

/-- The full ancestor walk started from a super name, with fuel
`pending.length + 1`. -/
def ancestors (pending : List (QName × ClassContext × Option (List QName)))
    (superName : QName) : Option (List QName) :=
  ancestorsAux pending (get_class_context pending superName)
    (pending.length + 1)

/-- The class-setup work of `ScriptContext.exit` for one pending class, in
registration order: resolve the ancestor list (the explicit base list when
one was supplied, otherwise the superclass walk with the universal root
"Object" appended when absent), then emit `getscopeobject 0`,
`getlex`+`pushscope` per ancestor (innermost last), append the class trait,
emit `getlex super_name`, `newclass index`, one `popscope` per ancestor and
`initproperty name`.  The `newclass` operand reads `context.index`, which
only exists once the class context has been exited (AttributeError
otherwise). -/
def scriptExitStep
    (pending : List (QName × ClassContext × Option (List QName)))
    (acc : List Trait × List Instruction) (key : QName) :
    Except PyErr (List Trait × List Instruction) :=
  match lookupPending pending key with
  | none => .error (.keyError key)
  | some (c, basesOpt) => do
      let parents ← match basesOpt with
        | some bs => pure bs
        | none =>
            match ancestors pending c.superName with
            | some ps =>
                pure (if ps.contains ("Object" : QName) then ps
                  else ps ++ ["Object"])
            | none => .error (.valueError "ancestor walk does not terminate")
      let idx ← match c.index with
        | some i => pure i
        | none => .error (.attributeError "index")
      pure (acc.1 ++ [.classTrait c.nm],
        acc.2 ++ [.getscopeobject 0]
          ++ (parents.reverse.map
              (fun p => [Instruction.getlex p, Instruction.pushscope])).flatten
          ++ [.getlex c.superName, .newclass idx]
          ++ List.replicate parents.length .popscope
          ++ [.initproperty c.nm])

/-- `ScriptContext.make_init` selects the existing init method context or
creates one for `AbcMethodInfo("", [], ANY_NAME)` (the any-type name,
written "*") with the standard two-instruction prologue.  The generator
enters this context; emissions during `ScriptContext.exit` land in it. -/
def scriptInitCtx (s : ScriptContext) : MethodContext :=
  match s.init with
  | some m => m
  | none => mkMethodContext ⟨"", [], "*", []⟩ [] false

/-- Body of `ScriptContext.exit` once the `done` flag is set: ensure the
init method exists (`make_init` enters its context), detach any
instructions after the two-instruction prologue, process every pending
class in registration order (emitting into the init context, which is the
generator's current context here, and appending the class traits), intern
the script record built from the init method info and the trait list, pop
the init method context (registering its method and body records) and
reattach the detached instructions. -/
def script_exit_run (s1 : ScriptContext) (abc : AbcFile) :
    Except PyErr (ScriptContext × AbcFile) :=
  let meth0 := scriptInitCtx s1
  let insts := meth0.instructions.drop 2
  let meth := { meth0 with instructions := meth0.instructions.take 2 }
  match s1.pendingOrder.foldlM (scriptExitStep s1.pending)
      (s1.traits, meth.instructions) with
  | .error e => .error e
  | .ok (traits1, instrs1) =>
      let scriptRec : AbcScriptRec := ⟨methodRec meth, traits1⟩
      let abc1 := { abc with scripts := (indexFor abc.scripts scriptRec).1 }
      let meth2 := { meth with instructions := instrs1 }
      let abc2 := method_exit meth2 abc1
      let meth3 := { meth2 with instructions := meth2.instructions ++ insts }
      .ok ({ s1 with init := some meth3, traits := traits1 }, abc2)

/-- `ScriptContext.exit`: a no-op returning immediately when already done
(guarded by the `done` flag — subsequent calls have no side effects);
otherwise it sets the flag and runs the finalization body.  It returns the
updated script state; `Ctx.exit` returns the parent, exactly as the source
returns `self.parent` on both paths. -/
def script_exit (s : ScriptContext) (abc : AbcFile) :
    Except PyErr (ScriptContext × AbcFile) :=
  if s.done then .ok (s, abc)
  else script_exit_run { s with done := true } abc

/-- Writing an exited class state back into the parent script's
pending-class table (Python reaches the same object through the aliased
reference stored by `new_class`; keys are unique, so updating by name is
equivalent). -/
def updatePendingClass (s : ScriptContext) (c : ClassContext) : ScriptContext :=
  { s with
      pending := s.pending.map
        (fun e => if e.1 == c.nm then (e.1, c, e.2.2) else e) }

/-- The finalize-and-return-parent transition of each context kind
(`GlobalContext.exit`, `ScriptContext.exit`, `ClassContext.exit`,
`MethodContext.exit`, `CatchContext.exit`).  `ClassContext.exit` asserts
that its parent is a script context. -/
def Ctx.exit : Ctx → AbcFile → Except PyErr (Option Ctx × AbcFile)
  | .globalCtx, abc => .ok (none, abc)
  | .scriptCtx s p, abc => do
      let (_, abc1) ← script_exit s abc
      .ok (some p, abc1)
  | .classCtx c p, abc =>
      match p with
      | .scriptCtx sp pp =>
          let (c1, abc1) := class_exit c abc
          .ok (some (.scriptCtx (updatePendingClass sp c1) pp), abc1)
      | _ => .error .assertionError
  | .methodCtx m slot p, abc =>
      .ok (some (writeBackMethod p slot m), method_exit m abc)
  | .catchCtx _ _ p, abc => .ok (some p, abc)

/-- `CodeGenerator.exit_context`: invoke the current context's exit
transition and reassign the current context to the returned parent; with no
current context (`None.exit()`) an AttributeError results. -/
def exit_context (g : Gen) : Except PyErr Gen :=
  match g.context with
  | none => .error (.attributeError "exit")
  | some c => do
      let (p, abc1) ← c.exit g.abc
      .ok ⟨p, abc1⟩

/-- `CodeGenerator.end_method`: exits the current context when it is a
method context — the constructor flag is not consulted (the docstring even
notes the method "will work for constructors") — and raises
WrongContextError otherwise. -/
def end_method (g : Gen) : Except PyErr Gen :=
  match g.context with
  | none => .error (.attributeError "CONTEXT_TYPE")
  | some c =>
      if c.contextType == "method" then exit_context g
      else .error (.wrongContext "end_method" c.contextType)

/-- `CodeGenerator.end_constructor`: exits the current context when it is a
method context whose constructor flag is set, and raises WrongContextError
otherwise. -/
def end_constructor (g : Gen) : Except PyErr Gen :=
  match g.context with
  | none => .error (.attributeError "CONTEXT_TYPE")
  | some c =>
      if c.contextType == "method" && c.constructorFlag then exit_context g
      else .error (.wrongContext "end_constructor" c.contextType)

/-- `CodeGenerator.begin_class` forwards to the current context's
`new_class`; only script contexts define that attribute (catch contexts are
only ever created over method contexts, whose delegation also fails). -/
def begin_class (g : Gen) (nm : QName) (superName : Option QName)
    (bases : Option (List QName)) : Except PyErr Gen :=
  match g.context with
  | some (.scriptCtx s p) =>
      let (s1, ctx) := s.new_class nm superName bases
      .ok { g with context := some (.classCtx ctx (.scriptCtx s1 p)) }
  | _ => .error (.attributeError "new_class")

/-- `CodeGenerator.begin_constructor(arglist)`: requires a class context
(WrongContextError otherwise), then `make_iinit` fixes or re-enters the
instance initializer and the generator enters its method context. -/
def begin_constructor (g : Gen) (arglist : List (QName × String)) :
    Except PyErr Gen :=
  match g.context with
  | some (.classCtx c p) => do
      let (c1, m) ← c.make_iinit arglist
      .ok { g with context := some (.methodCtx m .classIinit (.classCtx c1 p)) }
  | some c => .error (.wrongContext "begin_constructor" c.contextType)
  | none => .error (.attributeError "CONTEXT_TYPE")

/-- Chain length of a context: the number of frames from here down to (and
including) the global context. -/
def Ctx.depth : Ctx → Nat
  | .globalCtx => 1
  | .scriptCtx _ p => p.depth + 1
  | .classCtx _ p => p.depth + 1
  | .methodCtx _ _ p => p.depth + 1
  | .catchCtx _ _ p => p.depth + 1

def Gen.depth (g : Gen) : Nat :=
  match g.context with
  | none => 0
  | some c => c.depth

/-- `CodeGenerator.finish`: `while self.context: self.exit_context()`.  The
while loop is modelled with fuel; `finish` supplies the chain depth, which
suffices because every exit hands control to the (possibly updated) parent
one level down (`exit_context_depth`). -/
def finishAux : Nat → Gen → Except PyErr Gen
  | 0, g => .ok g
  | n + 1, g =>
      match g.context with
      | none => .ok g
      | some _ => do finishAux n (← exit_context g)

def finish (g : Gen) : Except PyErr Gen := finishAux g.depth g

/-- The generator state reached by `begin_class("Foo")` followed by
`begin_constructor([("int", "x")])` on a fresh generator. -/
def c1GenE : Except PyErr Gen := do
  begin_constructor (← begin_class initialGen "Foo" none none) [("int", "x")]

/-- True when the run ended in a WrongContextError. -/
def isWrongContextErr (e : Except PyErr Gen) : Bool :=
  match e with
  | .error (.wrongContext _ _) => true
  | _ => false

/-- True when the run succeeded with a constructor method frame current. -/
def currentIsConstructorMethod (e : Except PyErr Gen) : Bool :=
  match e with
  | .ok g =>
      match g.context with
      | some c => c.contextType == "method" && c.constructorFlag
      | none => false
  | _ => false

/-- C1 counterexample: after opening a class and its constructor, the
current context is a constructor method frame, yet `end_method` does not
fail with a WrongContextError — it closes the frame (its own docstring says
it "will work for constructors").  This refutes the claim that `end_method`
rejects constructor frames. -/
theorem end_method_accepts_constructor_frame :
    currentIsConstructorMethod c1GenE = true ∧
    isWrongContextErr (c1GenE.bind end_method) = false ∧
    (c1GenE.bind end_method).toOption.isSome = true := by
  decide

/-- C1 (amended): of the paired closers only `end_constructor` is
restricted: `end_method` closes any method frame, a constructor frame
included (it tests only `CONTEXT_TYPE`), while `end_constructor` fails with
a WrongContextError (reporting the operation "end_constructor" and the
actual kind "method") on a method frame whose constructor flag is unset. -/
theorem end_method_end_constructor_dispatch :
    (∀ (m : MethodContext) (slot : MethodSlot) (p : Ctx) (abc : AbcFile),
      m.constructor = true →
      end_method ⟨some (.methodCtx m slot p), abc⟩ =
        .ok ⟨some (writeBackMethod p slot m), method_exit m abc⟩) ∧
    (∀ (m : MethodContext) (slot : MethodSlot) (p : Ctx) (abc : AbcFile),
      m.constructor = false →
      end_constructor ⟨some (.methodCtx m slot p), abc⟩ =
        .error (.wrongContext "end_constructor" "method")) := by
  constructor
  · intro m slot p abc _
    rfl
  · intro m slot p abc hc
    rw [end_constructor]
    simp [Ctx.contextType, Ctx.constructorFlag, hc]

/-- Witness for `end_method_end_constructor_dispatch`: a fresh iinit context
(constructor flag set) closed by `end_method`, and a fresh cinit context
(constructor flag unset) rejected by `end_constructor`. -/
theorem end_method_end_constructor_dispatch_witness :
    end_method ⟨some (.methodCtx (mkIinitCtx []) .classIinit .globalCtx),
        emptyAbc⟩ =
      .ok ⟨some (writeBackMethod .globalCtx .classIinit (mkIinitCtx [])),
        method_exit (mkIinitCtx []) emptyAbc⟩ ∧
    end_constructor ⟨some (.methodCtx mkCinitCtx .plain .globalCtx),
        emptyAbc⟩ =
      .error (.wrongContext "end_constructor" "method") :=
  ⟨end_method_end_constructor_dispatch.1 (mkIinitCtx []) .classIinit
      .globalCtx emptyAbc rfl,
   end_method_end_constructor_dispatch.2 mkCinitCtx .plain
      .globalCtx emptyAbc rfl⟩

theorem script_exit_run_shape (s : ScriptContext) (abc : AbcFile)
    (s1 : ScriptContext) (abc1 : AbcFile)
    (h : script_exit_run s abc = .ok (s1, abc1)) :
    s1.done = s.done ∧ ∃ r, abc1.scripts = (indexFor abc.scripts r).1 := by
  simp only [script_exit_run] at h
  split at h
  · exact absurd h (by simp)
  · rename_i traits1 instrs1 heq
    simp only [Except.ok.injEq, Prod.mk.injEq] at h
    obtain ⟨hs, habc⟩ := h
    subst hs
    subst habc
    exact ⟨rfl, ⟨⟨methodRec (scriptInitCtx s), traits1⟩, rfl⟩⟩

/-- C4: Script-frame finalize is idempotent.  A ScriptContext whose `done`
flag is already set exits immediately, returning the parent with no side
effects; and any completed first exit sets the flag, so a second exit
returns the parent again, changes neither the script state nor the bytecode
file, and the script record was interned into the script table by exactly
the one `index_for` call of the first exit. -/
theorem script_exit_idempotent :
    (∀ (s : ScriptContext) (p : Ctx) (abc : AbcFile),
      s.done = true →
      script_exit s abc = .ok (s, abc) ∧
      Ctx.exit (.scriptCtx s p) abc = .ok (some p, abc)) ∧
    (∀ (s : ScriptContext) (p : Ctx) (abc : AbcFile) (s1 : ScriptContext)
        (abc1 : AbcFile),
      s.done = false →
      script_exit s abc = .ok (s1, abc1) →
      Ctx.exit (.scriptCtx s p) abc = .ok (some p, abc1) ∧
      s1.done = true ∧
      script_exit s1 abc1 = .ok (s1, abc1) ∧
      Ctx.exit (.scriptCtx s1 p) abc1 = .ok (some p, abc1) ∧
      ∃ r, abc1.scripts = (indexFor abc.scripts r).1) := by
  have hdone : ∀ (s : ScriptContext) (abc : AbcFile), s.done = true →
      script_exit s abc = .ok (s, abc) := by
    intro s abc h
    rw [script_exit, if_pos h]
  constructor
  · intro s p abc h
    exact ⟨hdone s abc h, by simp only [Ctx.exit, hdone s abc h]; rfl⟩
  · intro s p abc s1 abc1 h0 h1
    have hrun : script_exit_run { s with done := true } abc = .ok (s1, abc1) := by
      rw [script_exit, if_neg (by simp [h0])] at h1
      exact h1
    have hshape := script_exit_run_shape _ _ _ _ hrun
    have hs1done : s1.done = true := hshape.1
    refine ⟨by simp only [Ctx.exit, h1]; rfl, hs1done, hdone s1 abc1 hs1done,
      by simp only [Ctx.exit, hdone s1 abc1 hs1done]; rfl, hshape.2⟩

/-- The concrete result of the first exit of a fresh script: the init
method context created by `make_init`, the script state afterwards and the
bytecode file holding one script, one method and one body record. -/
def c4InitMeth : MethodContext := mkMethodContext ⟨"", [], "*", []⟩ [] false

def c4S1 : ScriptContext := ⟨[], [], [], some c4InitMeth, true⟩

def c4Abc1 : AbcFile :=
  ⟨[⟨⟨"", [], "*", []⟩, []⟩], [⟨"", [], "*", []⟩], [⟨⟨"", [], "*", []⟩⟩],
    [], []⟩

/-- Witness for `script_exit_idempotent`: exiting a fresh script over the
global context, then exiting it again. -/
theorem script_exit_idempotent_witness :
    Ctx.exit (.scriptCtx freshScript .globalCtx) emptyAbc =
      .ok (some .globalCtx, c4Abc1) ∧
    script_exit c4S1 c4Abc1 = .ok (c4S1, c4Abc1) ∧
    Ctx.exit (.scriptCtx c4S1 .globalCtx) c4Abc1 =
      .ok (some .globalCtx, c4Abc1) := by
  have h := script_exit_idempotent.2 freshScript .globalCtx emptyAbc c4S1
    c4Abc1 rfl (by decide)
  exact ⟨h.1, h.2.2.1, h.2.2.2.1⟩

/-- C5: once a class's instance initializer is fixed, `begin_constructor`
with a nonempty parameter list fails with the redefinition ValueError
("parameters cannot be redefined").  The raise is the first statement of the
`iinit`-present branch of `make_iinit`, so nothing is mutated before it; in
this pure model the error return carries no new state, so the class (its
fixed iinit included) is unchanged by the failing call. -/
theorem begin_constructor_redefinition :
    ∀ (c : ClassContext) (i : MethodContext) (p : Ctx) (abc : AbcFile)
      (arglist : List (QName × String)),
      c.iinit = some i → arglist ≠ [] →
      begin_constructor ⟨some (.classCtx c p), abc⟩ arglist =
        .error (.valueError "parameters cannot be redefined") := by
  intro c i p abc arglist hi hne
  simp only [begin_constructor, ClassContext.make_iinit, hi]
  rw [if_pos hne]
  rfl

/-- The class context pending in the script after `begin_class("Foo")`. -/
def c5PendingClass : ClassContext := ⟨"Foo", "Object", [], [], none, none, none⟩

/-- The class context after its constructor was fixed with one int
parameter. -/
def c5Class : ClassContext :=
  { c5PendingClass with iinit := some (mkIinitCtx [("int", "x")]) }

/-- The script context holding "Foo" pending. -/
def c5Script : ScriptContext :=
  ⟨[], [("Foo", c5PendingClass, none)], ["Foo"], none, false⟩

/-- The bytecode file after the constructor method context was exited. -/
def c5Abc : AbcFile :=
  ⟨[], [⟨"", ["int"], "void", ["x"]⟩], [⟨⟨"", ["int"], "void", ["x"]⟩⟩],
    [], []⟩

/-- Witness for `begin_constructor_redefinition`: open a class, fix its
constructor with parameters `[("int", "x")]`, close it, and call
`begin_constructor` again with the different nonempty list
`[("uint", "y")]`. -/
theorem begin_constructor_redefinition_witness :
    (do
      let g1 ← begin_class initialGen "Foo" none none
      let g2 ← begin_constructor g1 [("int", "x")]
      end_constructor g2) =
      .ok ⟨some (.classCtx c5Class (.scriptCtx c5Script .globalCtx)), c5Abc⟩ ∧
    begin_constructor
        ⟨some (.classCtx c5Class (.scriptCtx c5Script .globalCtx)), c5Abc⟩
        [("uint", "y")] =
      .error (.valueError "parameters cannot be redefined") :=
  ⟨by decide,
   begin_constructor_redefinition c5Class (mkIinitCtx [("int", "x")])
      (.scriptCtx c5Script .globalCtx) c5Abc [("uint", "y")] rfl (by decide)⟩

/-- C10: pending-class registration is duplicate-free and re-entry is
hash-consed.  `new_class` with a name that is already pending returns the
existing class context (no new one is created) and leaves the pending table
and the registration order untouched; and the no-duplicate invariant of the
registration order (together with its agreement with the table keys, both
maintained in lockstep by `new_class`) is preserved by every call. -/
theorem new_class_no_duplicates :
    (∀ (s : ScriptContext) (nm : QName) (sn : Option QName)
        (b : Option (List QName)) (ctx : ClassContext)
        (e : Option (List QName)),
      lookupPending s.pending nm = some (ctx, e) →
      s.new_class nm sn b = (s, ctx)) ∧
    (∀ (s : ScriptContext) (nm : QName) (sn : Option QName)
        (b : Option (List QName)),
      s.pendingOrder.Nodup →
      s.pendingOrder = s.pending.map Prod.fst →
      (s.new_class nm sn b).1.pendingOrder.Nodup ∧
      (s.new_class nm sn b).1.pendingOrder =
        (s.new_class nm sn b).1.pending.map Prod.fst) := by
  constructor
  · intro s nm sn b ctx e hl
    rw [ScriptContext.new_class, hl]
  · intro s nm sn b hnd hkeys
    match hl : lookupPending s.pending nm with
    | some (ctx, e) =>
      rw [ScriptContext.new_class, hl]
      exact ⟨hnd, hkeys⟩
    | none =>
      rw [ScriptContext.new_class, hl]
      have hfind : s.pending.find? (fun e => e.1 == nm) = none := by
        by_contra hne
        obtain ⟨v, hv⟩ := Option.ne_none_iff_exists'.mp hne
        rw [lookupPending, hv] at hl
        simp at hl
      have hnotmem : nm ∉ s.pending.map Prod.fst := by
        intro hmem
        obtain ⟨entry, hent, hfst⟩ := List.mem_map.mp hmem
        have hp := List.find?_eq_none.mp hfind entry hent
        simp [hfst] at hp
      have hnotorder : nm ∉ s.pendingOrder := by
        rw [hkeys]; exact hnotmem
      constructor
      · simp [List.nodup_append, hnd, List.disjoint_singleton, hnotorder]
      · simp [hkeys]

/-- Witness for `new_class_no_duplicates`: re-entering the pending class
"Foo" returns the existing context unchanged, and registering a fresh name
"Bar" keeps the order duplicate-free and aligned with the table keys. -/
theorem new_class_no_duplicates_witness :
    c5Script.new_class "Foo" none none = (c5Script, c5PendingClass) ∧
    ((c5Script.new_class "Bar" none none).1.pendingOrder.Nodup ∧
      (c5Script.new_class "Bar" none none).1.pendingOrder =
        (c5Script.new_class "Bar" none none).1.pending.map Prod.fst) :=
  ⟨new_class_no_duplicates.1 c5Script "Foo" none none c5PendingClass none rfl,
   new_class_no_duplicates.2 c5Script "Bar" none none (by decide) (by decide)⟩

theorem writeBackMethod_depth (p : Ctx) (slot : MethodSlot)
    (m : MethodContext) : (writeBackMethod p slot m).depth = p.depth := by
  cases slot <;> cases p <;> rfl

/-- Every successful exit hands control to a context exactly one level
closer to the global context (or to none, from the global context itself):
each transition returns its parent, possibly with updated state but with
the same chain below it. -/
theorem exit_context_depth (g g1 : Gen) (h : exit_context g = .ok g1) :
    g1.depth + 1 = g.depth := by
  match hc : g.context with
  | none =>
    rw [exit_context, hc] at h
    exact Except.noConfusion h
  | some c =>
    rw [exit_context, hc] at h
    match c with
    | .globalCtx =>
      have h' : (Except.ok (⟨none, g.abc⟩ : Gen) : Except PyErr Gen) =
          .ok g1 := h
      injection h' with h1
      rw [← h1, Gen.depth, Gen.depth, hc]
      rfl
    | .scriptCtx s p =>
      simp only [Ctx.exit] at h
      cases hse : script_exit s g.abc with
      | error e =>
        rw [hse] at h
        exact Except.noConfusion
          (show (Except.error e : Except PyErr Gen) = .ok g1 from h)
      | ok pr =>
        rw [hse] at h
        have h' : (Except.ok (⟨some p, pr.2⟩ : Gen) : Except PyErr Gen) =
            .ok g1 := h
        injection h' with h1
        rw [← h1, Gen.depth, Gen.depth, hc]
        rfl
    | .classCtx cc p =>
      match p with
      | .scriptCtx sp pp =>
        have h' : (Except.ok (⟨some (.scriptCtx (updatePendingClass sp
            (class_exit cc g.abc).1) pp), (class_exit cc g.abc).2⟩ : Gen) :
              Except PyErr Gen) = .ok g1 := h
        injection h' with h1
        rw [← h1, Gen.depth, Gen.depth, hc]
        rfl
      | .globalCtx =>
        exact Except.noConfusion
          (show (Except.error .assertionError : Except PyErr Gen) = .ok g1 from h)
      | .classCtx _ _ =>
        exact Except.noConfusion
          (show (Except.error .assertionError : Except PyErr Gen) = .ok g1 from h)
      | .methodCtx _ _ _ =>
        exact Except.noConfusion
          (show (Except.error .assertionError : Except PyErr Gen) = .ok g1 from h)
      | .catchCtx _ _ _ =>
        exact Except.noConfusion
          (show (Except.error .assertionError : Except PyErr Gen) = .ok g1 from h)
    | .methodCtx m slot p =>
      have h' : (Except.ok (⟨some (writeBackMethod p slot m),
          method_exit m g.abc⟩ : Gen) : Except PyErr Gen) = .ok g1 := h
      injection h' with h1
      rw [← h1, Gen.depth, Gen.depth, hc]
      simp [Ctx.depth, writeBackMethod_depth]
    | .catchCtx n l p =>
      have h' : (Except.ok (⟨some p, g.abc⟩ : Gen) : Except PyErr Gen) =
          .ok g1 := h
      injection h' with h1
      rw [← h1, Gen.depth, Gen.depth, hc]
      rfl

theorem finishAux_ok (n : Nat) : ∀ (g g1 : Gen), g.depth ≤ n →
    finishAux n g = .ok g1 → g1.context = none := by
  induction n with
  | zero =>
    intro g g1 hd h
    have h' : (Except.ok g : Except PyErr Gen) = .ok g1 := h
    injection h' with h1
    rw [← h1]
    match hc : g.context with
    | none => rfl
    | some c =>
      rw [Gen.depth, hc] at hd
      cases c <;> simp [Ctx.depth] at hd
  | succ n ih =>
    intro g g1 hd h
    match hc : g.context with
    | none =>
      simp only [finishAux, hc, Except.ok.injEq] at h
      rw [← h, hc]
    | some c =>
      simp only [finishAux, hc] at h
      cases he : exit_context g with
      | error e =>
        rw [he] at h
        exact Except.noConfusion
          (show (Except.error e : Except PyErr Gen) = .ok g1 from h)
      | ok g2 =>
        rw [he] at h
        have h2 : finishAux n g2 = .ok g1 := h
        have hdepth := exit_context_depth g g2 he
        exact ih g2 g1 (by omega) h2

/-- C9 (amended): whenever the `finish` drain completes normally — that is,
every finalize transition along the way returns instead of failing or
looping (in particular every pending superclass walk terminates, class
frames sit above script frames, and pending classes have been finalized
when their script exits) — the loop terminates after exactly chain-depth
iterations and leaves the generator's current context None; each
`exit_context` strictly decreases the chain depth. -/
theorem finish_drains_context :
    ∀ (g g1 : Gen), finish g = .ok g1 → g1.context = none :=
  fun g g1 h => finishAux_ok g.depth g g1 (le_refl _) h

/-- Witness for `finish_drains_context`: finishing a fresh generator
(script over global) exits the script and then the global context, ending
with no current context. -/
theorem finish_drains_context_witness :
    finish initialGen = .ok ⟨none, c4Abc1⟩ ∧
    (⟨none, c4Abc1⟩ : Gen).context = none :=
  ⟨by decide, finish_drains_context initialGen ⟨none, c4Abc1⟩ (by decide)⟩

/-- A pending class whose superclass chain loops: `new_class("A",
super_name="A")` leaves "A" pending with itself as its own resolved
superclass. -/
def c9SelfLoop : ClassContext := ⟨"A", "A", [], [], none, none, none⟩

def c9Pending : List (QName × ClassContext × Option (List QName)) :=
  [("A", c9SelfLoop, none)]

/-- The ancestor-collection loop of `ScriptContext.exit` exits within some
finite number of iterations when started on the given super name. -/
def walkTerminates
    (pending : List (QName × ClassContext × Option (List QName)))
    (superName : QName) : Prop :=
  ∃ n, ancestorsAux pending (get_class_context pending superName) n ≠ none

theorem c9SelfLoop_walk_stuck :
    ∀ n, ancestorsAux c9Pending (some c9SelfLoop) n = none := by
  intro n
  induction n with
  | zero => rfl
  | succ n ih =>
    rw [ancestorsAux]
    rw [show get_class_context c9Pending c9SelfLoop.superName =
        some c9SelfLoop from rfl]
    rw [ih]
    rfl

/-- C9 counterexample: a generator whose context stack is the finite acyclic
chain script-over-global — satisfying the claim's hypothesis — on which
`finish` does not terminate with context None: the script holds the pending
class "A" with `super_name` "A", so the ancestor loop
`while ctx: parents.append(ctx.name); ctx = get_class_context(...)` inside
`ScriptContext.exit` revisits "A" forever and never exits (first conjunct);
in the fuel model this surfaces as the walk-truncation marker error
(second conjunct), where the Python source loops without terminating. -/
theorem finish_diverges_on_cyclic_superclass :
    ¬ walkTerminates c9Pending "A" ∧
    finish ⟨some (.scriptCtx ⟨[], c9Pending, ["A"], none, false⟩ .globalCtx),
        emptyAbc⟩ =
      .error (.valueError "ancestor walk does not terminate") := by
  constructor
  · rintro ⟨n, hn⟩
    exact hn (by
      rw [show get_class_context c9Pending "A" = some c9SelfLoop from rfl]
      exact c9SelfLoop_walk_stuck n)
  · decide

end Avm2

end Fusion
